import Mathlib

/-!
Verification of the citation attribution engine of the `freeenergy` repository.

The engine lives in two TypeScript files:

* `frontend/lib/tools/search/providers/vertex.ts` — the AI-mode variant of
  `VertexSearchProvider.search` splices `[n]` citation markers into the answer
  text at byte offsets reported by the upstream answer service, tracking a
  running byte delta, and falls back to empty results on any failure of the
  external call.
* `frontend/app/api/energy-search/route.ts` — `queryAIMode` renumbers the
  inline `[n]` markers of the answer text and `transformReferences` turns the
  upstream reference list into citation entries, resolving signed deep links
  for PDF pages via `getDocumentSignedUrl`.

Texts handled by the byte editor are modelled as lists of byte values
(`List Nat`).  The editor's loop keeps its state as a string, re-deriving the
buffer each iteration (`Buffer.from(aiModeAnswer, 'utf-8')` /
`Buffer.concat(...).toString('utf-8')`); Node's decoder substitutes U+FFFD
for invalid sequences (WHATWG maximal-subpart policy) rather than raising.
That round trip is modelled byte-for-byte by `utf8Sanitize`, and the loop
with the round trip by `insertLoopNode`; `insertLoop` is the same loop with
the round trip elided, i.e. it computes the raw spliced byte buffers
themselves, and coincides with `insertLoopNode` whenever every intermediate
buffer is valid UTF-8 (proved in `insertLoopNode_eq_insertLoop`).  Texts
handled by the regex renumbering pass are modelled as lists of characters.  External asynchronous lookups are modelled as an injected
function `String → Nat → Option String` (`none` = non-success response,
network error, or timeout), and the sequence of lookup calls a computation
performs is returned alongside its result so call-counting properties can be
stated.  JavaScript truthiness of optional strings and numbers is modelled
explicitly (`""` and `0` are falsy).
-/

/-- Worker of `jsSetDedup`, carrying the set of elements already seen. -/
def jsSetDedupGo {α : Type} [DecidableEq α] (seen : List α) : List α → List α
  | [] => []
  | x :: xs => if x ∈ seen then jsSetDedupGo seen xs else x :: jsSetDedupGo (x :: seen) xs

/-- Insertion-ordered deduplication, the behaviour of `[...new Set(xs)]` in
JavaScript: keeps the first occurrence of each element. -/
def jsSetDedup {α : Type} [DecidableEq α] (l : List α) : List α :=
  jsSetDedupGo [] l

/-- Fuel-driven accumulator loop producing the decimal ASCII digits of a
natural number, most significant first. -/
def decDigitsCore (fuel : Nat) (n : Nat) (acc : List Nat) : List Nat :=
  match fuel with
  | 0 => acc
  | fuel + 1 =>
    if n < 10 then (48 + n) :: acc
    else decDigitsCore fuel (n / 10) ((48 + n % 10) :: acc)

/-- Decimal digits of a natural number as ASCII byte values. -/
def decDigits (n : Nat) : List Nat :=
  decDigitsCore (n + 1) n []

/-- A parsed citation record of the AI-mode answer
(`vertex.ts`, interface `VertexCitation`): the byte offset `endIndex` into the
original answer text, and the parsed `referenceIndex ?? referenceId` of each
source (`none` models a value `parseInt` turned into `NaN`). -/
structure VertexCitation where
  endIndex : Nat
  sources : List (Option Nat)
deriving DecidableEq, Repr

/-- `citation.sources.map(parseInt).filter(not NaN)` deduplicated by
`new Set`, i.e. the unique valid reference indices of one citation
(`vertex.ts` lines 434-440). -/
def validRefs (c : VertexCitation) : List Nat :=
  jsSetDedup (c.sources.filterMap id)

/-- The marker bytes `uniqueRefs.map(idx => "[" ++ (idx+1) ++ "]").join('')`
(`vertex.ts` line 446): UTF-8 bytes of `[n]`-markers, one per unique
reference index, each displaying the raw index plus one. -/
def markerBytes (refs : List Nat) : List Nat :=
  (refs.map (fun idx => 91 :: decDigits (idx + 1) ++ [93])).flatten

/-- Byte length of the marker a citation contributes. -/
def markerLen (c : VertexCitation) : Nat :=
  (markerBytes (validRefs c)).length

/-- Stable insertion of a citation into a list sorted ascending by
`endIndex`; together with `sortCitations` this models the stable JavaScript
`sort((a, b) => parseInt(a.endIndex) - parseInt(b.endIndex))`. -/
def insertCit (c : VertexCitation) : List VertexCitation → List VertexCitation
  | [] => [c]
  | d :: ds => if d.endIndex < c.endIndex then d :: insertCit c ds else c :: d :: ds

/-- Stable ascending sort of citations by `endIndex` (`vertex.ts` line 417). -/
def sortCitations (l : List VertexCitation) : List VertexCitation :=
  l.foldr insertCit []

/-- The raw byte splices of the marker insertion loop of `vertex.ts` lines
425-459, with the per-iteration buffer/string round trip elided (see
`insertLoopNode` for the loop with the round trip; the two agree whenever
every intermediate buffer is valid UTF-8).  State: the set of already-marked
original byte positions (`markedPositions`), the running byte delta of all
previously inserted markers (`offsetAdjustment`), and the current text bytes.
A citation at an already-marked position is skipped; a citation with no
valid reference indices marks its position but inserts nothing; any other
citation has its marker spliced in at `endIndex + delta` (`Buffer.subarray`
clamps positions beyond the end of the buffer, as `List.take`/`List.drop`
do).  For a single citation this is exactly the final spliced byte buffer
the program builds before its last decode. -/
def insertLoop (marked : List Nat) (delta : Nat) (text : List Nat) :
    List VertexCitation → List Nat
  | [] => text
  | c :: rest =>
    if c.endIndex ∈ marked then
      insertLoop marked delta text rest
    else if (validRefs c).isEmpty then
      insertLoop (c.endIndex :: marked) delta text rest
    else
      let marker := markerBytes (validRefs c)
      let pos := c.endIndex + delta
      insertLoop (c.endIndex :: marked) (delta + marker.length)
        (text.take pos ++ marker ++ text.drop pos) rest

/-- The whole marker insertion pass of `vertex.ts` lines 414-460: if the
response carries a nonempty citation list, sort it ascending by `endIndex`
and run the insertion loop from an empty marked set and zero delta. -/
def insertCitationMarkers (text : List Nat) : Option (List VertexCitation) → List Nat
  | none => text
  | some cs => if cs.isEmpty then text else insertLoop [] 0 text (sortCitations cs)

/-- Validity of a byte sequence as UTF-8 (RFC 3629 table): used to state
whether the spliced buffer decodes cleanly or only via replacement
characters. -/
def isValidUtf8 : List Nat → Bool
  | [] => true
  | b :: bs =>
    if b < 0x80 then isValidUtf8 bs
    else if 0xC2 ≤ b ∧ b ≤ 0xDF then
      match bs with
      | b1 :: bs1 => if 0x80 ≤ b1 ∧ b1 ≤ 0xBF then isValidUtf8 bs1 else false
      | [] => false
    else if 0xE0 ≤ b ∧ b ≤ 0xEF then
      match bs with
      | b1 :: b2 :: bs2 =>
        if (0x80 ≤ b1 ∧ b1 ≤ 0xBF) ∧ (0x80 ≤ b2 ∧ b2 ≤ 0xBF)
            ∧ (b = 0xE0 → 0xA0 ≤ b1) ∧ (b = 0xED → b1 ≤ 0x9F) then
          isValidUtf8 bs2
        else false
      | _ => false
    else if 0xF0 ≤ b ∧ b ≤ 0xF4 then
      match bs with
      | b1 :: b2 :: b3 :: bs3 =>
        if (0x80 ≤ b1 ∧ b1 ≤ 0xBF) ∧ (0x80 ≤ b2 ∧ b2 ≤ 0xBF) ∧ (0x80 ≤ b3 ∧ b3 ≤ 0xBF)
            ∧ (b = 0xF0 → 0x90 ≤ b1) ∧ (b = 0xF4 → b1 ≤ 0x8F) then
          isValidUtf8 bs3
        else false
      | _ => false
    else false

/-- Continuation handling of `utf8Sanitize` for a two-byte lead `b`:
a well-formed continuation byte completes the character; a malformed one is
reconsumed after emitting the U+FFFD bytes; end of stream emits one
U+FFFD. -/
def utf8SanTwo (next : List Nat → List Nat) (b : Nat) (bs : List Nat) : List Nat :=
  match bs with
  | [] => [239, 191, 189]
  | b1 :: bs1 =>
    if 0x80 ≤ b1 ∧ b1 ≤ 0xBF then b :: b1 :: next bs1
    else 239 :: 191 :: 189 :: next (b1 :: bs1)

/-- Second continuation byte of a three-byte character. -/
def utf8SanThreeTail (next : List Nat → List Nat) (b b1 : Nat) (bs1 : List Nat) : List Nat :=
  match bs1 with
  | [] => [239, 191, 189]
  | b2 :: bs2 =>
    if 0x80 ≤ b2 ∧ b2 ≤ 0xBF then b :: b1 :: b2 :: next bs2
    else 239 :: 191 :: 189 :: next (b2 :: bs2)

/-- First continuation byte of a three-byte character, with the E0/ED
range restrictions of the lead byte. -/
def utf8SanThree (next : List Nat → List Nat) (b : Nat) (bs : List Nat) : List Nat :=
  match bs with
  | [] => [239, 191, 189]
  | b1 :: bs1 =>
    if (0x80 ≤ b1 ∧ b1 ≤ 0xBF) ∧ (b = 0xE0 → 0xA0 ≤ b1) ∧ (b = 0xED → b1 ≤ 0x9F) then
      utf8SanThreeTail next b b1 bs1
    else 239 :: 191 :: 189 :: next (b1 :: bs1)

/-- Third continuation byte of a four-byte character. -/
def utf8SanFourTail2 (next : List Nat → List Nat) (b b1 b2 : Nat) (bs2 : List Nat) :
    List Nat :=
  match bs2 with
  | [] => [239, 191, 189]
  | b3 :: bs3 =>
    if 0x80 ≤ b3 ∧ b3 ≤ 0xBF then b :: b1 :: b2 :: b3 :: next bs3
    else 239 :: 191 :: 189 :: next (b3 :: bs3)

/-- Second continuation byte of a four-byte character. -/
def utf8SanFourTail1 (next : List Nat → List Nat) (b b1 : Nat) (bs1 : List Nat) : List Nat :=
  match bs1 with
  | [] => [239, 191, 189]
  | b2 :: bs2 =>
    if 0x80 ≤ b2 ∧ b2 ≤ 0xBF then utf8SanFourTail2 next b b1 b2 bs2
    else 239 :: 191 :: 189 :: next (b2 :: bs2)

/-- First continuation byte of a four-byte character, with the F0/F4 range
restrictions of the lead byte. -/
def utf8SanFour (next : List Nat → List Nat) (b : Nat) (bs : List Nat) : List Nat :=
  match bs with
  | [] => [239, 191, 189]
  | b1 :: bs1 =>
    if (0x80 ≤ b1 ∧ b1 ≤ 0xBF) ∧ (b = 0xF0 → 0x90 ≤ b1) ∧ (b = 0xF4 → b1 ≤ 0x8F) then
      utf8SanFourTail1 next b b1 bs1
    else 239 :: 191 :: 189 :: next (b1 :: bs1)

/-- Fuel-driven worker of `utf8Sanitize`.  Every recursive call strictly
shortens the list, so fuel `l.length + 1` never runs out.  It re-emits every
well-formed character unchanged and replaces each maximal invalid subpart by
the three UTF-8 bytes `EF BF BD` of U+FFFD, reconsuming the offending byte
when it was a failed continuation byte — the WHATWG decoding algorithm that
Node's `Buffer.toString('utf-8')` implements, composed with re-encoding. -/
def utf8SanitizeCore (fuel : Nat) (l : List Nat) : List Nat :=
  match fuel with
  | 0 => []
  | fuel + 1 =>
    match l with
    | [] => []
    | b :: bs =>
      if b < 0x80 then b :: utf8SanitizeCore fuel bs
      else if 0xC2 ≤ b ∧ b ≤ 0xDF then utf8SanTwo (utf8SanitizeCore fuel) b bs
      else if 0xE0 ≤ b ∧ b ≤ 0xEF then utf8SanThree (utf8SanitizeCore fuel) b bs
      else if 0xF0 ≤ b ∧ b ≤ 0xF4 then utf8SanFour (utf8SanitizeCore fuel) b bs
      else 239 :: 191 :: 189 :: utf8SanitizeCore fuel bs

/-- The byte-level effect of the buffer/string round trip
`Buffer.from(buf.toString('utf-8'), 'utf-8')` in Node: well-formed UTF-8
passes through unchanged; each maximal invalid subpart is replaced by the
bytes of U+FFFD.  Decoding never raises. -/
def utf8Sanitize (l : List Nat) : List Nat :=
  utf8SanitizeCore (l.length + 1) l

/-- A byte list that is a concatenation of well-formed UTF-8 characters —
the inductive counterpart of `isValidUtf8`, with one constructor per
character length (RFC 3629 table).  A byte position is a character boundary
of a text exactly when the prefix up to it satisfies this predicate. -/
inductive Utf8Chars : List Nat → Prop where
  | nil : Utf8Chars []
  | ascii {b : Nat} {rest : List Nat} :
      b < 0x80 → Utf8Chars rest → Utf8Chars (b :: rest)
  | two {b b1 : Nat} {rest : List Nat} :
      0xC2 ≤ b → b ≤ 0xDF → 0x80 ≤ b1 → b1 ≤ 0xBF →
      Utf8Chars rest → Utf8Chars (b :: b1 :: rest)
  | three {b b1 b2 : Nat} {rest : List Nat} :
      0xE0 ≤ b → b ≤ 0xEF → 0x80 ≤ b1 → b1 ≤ 0xBF → 0x80 ≤ b2 → b2 ≤ 0xBF →
      (b = 0xE0 → 0xA0 ≤ b1) → (b = 0xED → b1 ≤ 0x9F) →
      Utf8Chars rest → Utf8Chars (b :: b1 :: b2 :: rest)
  | four {b b1 b2 b3 : Nat} {rest : List Nat} :
      0xF0 ≤ b → b ≤ 0xF4 → 0x80 ≤ b1 → b1 ≤ 0xBF → 0x80 ≤ b2 → b2 ≤ 0xBF →
      0x80 ≤ b3 → b3 ≤ 0xBF →
      (b = 0xF0 → 0x90 ≤ b1) → (b = 0xF4 → b1 ≤ 0x8F) →
      Utf8Chars rest → Utf8Chars (b :: b1 :: b2 :: b3 :: rest)

/-- The marker insertion loop of `vertex.ts` lines 425-459 with the
per-iteration buffer/string round trip of lines 451-455 included: the state
carried between iterations is the decoded string `aiModeAnswer`, so after
each splice the buffer is decoded and re-encoded (`utf8Sanitize`), replacing
any invalid subsequences the splice produced by U+FFFD bytes. -/
def insertLoopNode (marked : List Nat) (delta : Nat) (text : List Nat) :
    List VertexCitation → List Nat
  | [] => text
  | c :: rest =>
    if c.endIndex ∈ marked then
      insertLoopNode marked delta text rest
    else if (validRefs c).isEmpty then
      insertLoopNode (c.endIndex :: marked) delta text rest
    else
      let marker := markerBytes (validRefs c)
      let pos := c.endIndex + delta
      insertLoopNode (c.endIndex :: marked) (delta + marker.length)
        (utf8Sanitize (text.take pos ++ marker ++ text.drop pos)) rest

/-- The whole marker insertion pass of `vertex.ts` lines 414-460 with the
per-iteration round trips, producing the bytes of the final `aiModeAnswer`
string. -/
def insertCitationMarkersNode (text : List Nat) : Option (List VertexCitation) → List Nat
  | none => text
  | some cs => if cs.isEmpty then text else insertLoopNode [] 0 text (sortCitations cs)

/-- Longest prefix of decimal digit characters of a character list, together
with the remainder (the `\d+` step of the marker regex). -/
def takeDigits : List Char → List Char × List Char
  | [] => ([], [])
  | c :: cs =>
    if c.isDigit then
      let p := takeDigits cs
      (c :: p.1, p.2)
    else ([], c :: cs)

/-- `parseInt` on a nonempty string of decimal digits. -/
def digitsToNat (ds : List Char) : Nat :=
  ds.foldl (fun a c => a * 10 + (c.toNat - 48)) 0

/-- Fuel-driven scan underlying `scanMarkers`.  Every recursive call strictly
shortens the list, so fuel `l.length + 1` never runs out. -/
def scanMarkersCore (fuel : Nat) (l : List Char) : List Nat :=
  match fuel with
  | 0 => []
  | fuel + 1 =>
    match l with
    | [] => []
    | c :: cs =>
      if c = '[' then
        match takeDigits cs with
        | ([], _) => scanMarkersCore fuel cs
        | (d :: ds, rest) =>
          match rest with
          | ']' :: rest1 => digitsToNat (d :: ds) :: scanMarkersCore fuel rest1
          | _ => scanMarkersCore fuel cs
      else scanMarkersCore fuel cs

/-- All numbers matched by the global regex `\[(\d+)\]` over the answer text,
left to right and non-overlapping, each parsed by `parseInt`
(`route.ts` lines 194-195). -/
def scanMarkers (l : List Char) : List Nat :=
  scanMarkersCore (l.length + 1) l

/-- Fuel-driven scan underlying `replaceSeq`; as the pattern is always
nonempty where it is used, every recursive call strictly shortens the list. -/
def replaceSeqCore (pat rep : List Char) (fuel : Nat) (l : List Char) : List Char :=
  match fuel with
  | 0 => l
  | fuel + 1 =>
    match l with
    | [] => []
    | c :: cs =>
      if pat ≠ [] ∧ pat.isPrefixOf (c :: cs) then
        rep ++ replaceSeqCore pat rep fuel ((c :: cs).drop pat.length)
      else c :: replaceSeqCore pat rep fuel cs

/-- Global, non-overlapping, left-to-right literal replacement of `pat` by
`rep`, the behaviour of `String.prototype.replace` with a global regex whose
pattern is the literal `pat`; the replacement text is not rescanned within
one call. -/
def replaceSeq (pat rep : List Char) (l : List Char) : List Char :=
  replaceSeqCore pat rep (l.length + 1) l

/-- The character sequence of the literal marker `[n]`. -/
def markerChars (n : Nat) : List Char :=
  '[' :: (decDigits n).map Char.ofNat ++ [']']

/-- Ascending insertion for the numeric sort of the unique raw marker
numbers (`uniqueNumbers.sort((a, b) => a - b)`). -/
def insertAsc (n : Nat) : List Nat → List Nat
  | [] => [n]
  | m :: ms => if m ≤ n then m :: insertAsc n ms else n :: m :: ms

/-- Ascending numeric sort of a list of naturals. -/
def sortAsc (l : List Nat) : List Nat :=
  l.foldr insertAsc []

/-- The marker renumbering pass of `queryAIMode` (`route.ts` lines 191-209):
collect the distinct raw numbers appearing in `[n]` markers, sort them
ascending, map the number of rank `idx` (zero-based) to `idx + 1`, and apply
one global textual replacement per raw number, highest raw number first. -/
def renumberAnswer (answer : List Char) : List Char :=
  let citationMatches := scanMarkers answer
  let uniqueNumbers := sortAsc (jsSetDedup citationMatches)
  let sortedOldNumbers := uniqueNumbers.reverse
  sortedOldNumbers.foldl
    (fun acc oldNum =>
      replaceSeq (markerChars oldNum)
        (markerChars (uniqueNumbers.findIdx (fun m => m == oldNum) + 1)) acc)
    answer

/-- The two document source formats of `VertexStructData.source_type`. -/
inductive SourceType where
  | pdf
  | docx
deriving DecidableEq, Repr

/-- The display string of a source type (the TypeScript string literal). -/
def SourceType.str : SourceType → String
  | .pdf => "pdf"
  | .docx => "docx"

/-- The loosely-typed per-chunk metadata record `VertexStructData`
(`route.ts` via `lib/types/documents`, `vertex.ts` lines 223-236); absent
optional fields are `none`. -/
structure VertexStructData where
  title : String
  video_id : Option String := none
  timestamp_start : Option Nat := none
  timestamp_end : Option Nat := none
  channel : Option String := none
  transcript : Option String := none
  source_type : Option SourceType := none
  document_id : Option String := none
  page_number : Option Nat := none
  section_heading : Option String := none
deriving DecidableEq, Repr

/-- One entry of `data.answer.references`: the chunk content, the document
metadata title, and the optional `structData` record. -/
structure VertexReference where
  title : String
  content : String
  structData : Option VertexStructData := none
deriving DecidableEq, Repr

/-- The unified citation entry `AIModeCitation` produced by
`transformReferences` (`route.ts` lines 82-136). -/
structure AIModeCitation where
  citationNumber : Nat
  sourceType : String
  title : String
  snippet : String
  documentId : Option String := none
  pageNumber : Option Nat := none
  videoId : Option String := none
  timestamp : Option Nat := none
  deepLink : Option String := none
deriving DecidableEq, Repr

/-- JavaScript truthiness of an optional string: `undefined` and `""` are
falsy. -/
def truthyStr : Option String → Bool
  | none => false
  | some s => !s.isEmpty

/-- JavaScript truthiness of an optional number: `undefined` and `0` are
falsy. -/
def truthyNat : Option Nat → Bool
  | none => false
  | some n => n != 0

/-- The `(documentId, pageNumber)` key for which `transformReferences`
triggers a signed-URL lookup for a given reference, if any: the reference
must carry `structData` with truthy `source_type` and `document_id`,
`source_type === 'pdf'`, and a truthy `page_number`
(`route.ts` lines 104-111). -/
def lookupKeyOf (ref : VertexReference) : Option (String × Nat) :=
  match ref.structData with
  | none => none
  | some sd =>
    if sd.source_type.isSome ∧ truthyStr sd.document_id then
      if sd.source_type = some .pdf ∧ truthyNat sd.page_number then
        some (sd.document_id.getD "", sd.page_number.getD 0)
      else none
    else none

/-- `getDocumentSignedUrl` (`route.ts` lines 49-65) modelled through the
injected lookup environment: a non-OK response, a thrown network error or a
timeout all yield `undefined`, i.e. `none`; nothing propagates. -/
def getDocumentSignedUrl (env : String → Nat → Option String)
    (documentId : String) (pageNumber : Nat) : Option String :=
  env documentId pageNumber

/-- The citation entry one loop iteration of `transformReferences` pushes for
the reference at zero-based position `i` (`route.ts` lines 87-133). -/
def transformOneRef (env : String → Nat → Option String) (i : Nat)
    (ref : VertexReference) : AIModeCitation :=
  match ref.structData with
  | none =>
    { citationNumber := i + 1
      sourceType := "youtube"
      title := if ref.title.isEmpty then "Unknown" else ref.title
      snippet := ref.content }
  | some sd =>
    if sd.source_type.isSome ∧ truthyStr sd.document_id then
      let deepLink :=
        if sd.source_type = some .pdf ∧ truthyNat sd.page_number then
          getDocumentSignedUrl env (sd.document_id.getD "") (sd.page_number.getD 0)
        else none
      { citationNumber := i + 1
        sourceType := ((sd.source_type.getD .pdf)).str
        documentId := sd.document_id
        title := sd.title
        pageNumber := some (if truthyNat sd.page_number then sd.page_number.getD 0 else 1)
        snippet := if ref.content.isEmpty then sd.transcript.getD "" else ref.content
        deepLink := deepLink }
    else
      { citationNumber := i + 1
        sourceType := "youtube"
        videoId := sd.video_id
        title := sd.title
        timestamp := some (if truthyNat sd.timestamp_start then sd.timestamp_start.getD 0 else 0)
        snippet := if ref.content.isEmpty then sd.transcript.getD "" else ref.content }

/-- The loop of `transformReferences`, from position `i` on: returns the
citation entries in order together with the ordered sequence of
`(documentId, pageNumber)` signed-URL lookups it issues. -/
def transformRefsGo (env : String → Nat → Option String) (i : Nat) :
    List VertexReference → List AIModeCitation × List (String × Nat)
  | [] => ([], [])
  | r :: rs =>
    let rest := transformRefsGo env (i + 1) rs
    (transformOneRef env i r :: rest.1, (lookupKeyOf r).toList ++ rest.2)

/-- `transformReferences` (`route.ts` lines 82-136): one citation entry per
reference, numbered by position, with a sequential signed-URL lookup per
qualifying PDF reference; the lookup call log is returned alongside. -/
def transformReferences (env : String → Nat → Option String)
    (references : List VertexReference) : List AIModeCitation × List (String × Nat) :=
  transformRefsGo env 0 references

/-- `citations.forEach((c, idx) => c.citationNumber = idx + 1)`
(`route.ts` lines 212-214). -/
def reassignNumbers (i : Nat) : List AIModeCitation → List AIModeCitation
  | [] => []
  | c :: cs => { c with citationNumber := i + 1 } :: reassignNumbers (i + 1) cs

/-- `data.answer.answerSkippedReasons?.join(', ') || 'Unknown'`
(`route.ts` line 180): an absent list and an empty join are both replaced by
`"Unknown"`. -/
def joinReasons : Option (List String) → String
  | none => "Unknown"
  | some rs =>
    let s := String.intercalate ", " rs
    if s.isEmpty then "Unknown" else s

/-- The parsed body of a Vertex answer-API response
(`route.ts` interface `VertexAnswerResponse`), with the answer text as
characters for the marker renumbering pass. -/
structure VertexAnswer where
  answerText : List Char
  references : Option (List VertexReference) := none
  state : String
  answerSkippedReasons : Option (List String) := none
deriving DecidableEq, Repr

/-- The value `queryAIMode` resolves with (`route.ts` interface
`AIModeResponse`). -/
structure AIModeResponse where
  answer : List Char
  citations : List AIModeCitation
  query : String
deriving DecidableEq, Repr

/-- `queryAIMode` after the HTTP exchange succeeded (`route.ts` lines
176-221): on `state = 'FAILED'` it throws (models as `Except.error`) before
any reference transformation or lookup; otherwise it transforms the
references, renumbers the inline markers of the answer text and reassigns the
citation numbers positionally.  The second component is the ordered log of
signed-URL lookups the call issued. -/
def queryAIModeLog (env : String → Nat → Option String) (query : String)
    (data : VertexAnswer) : Except String AIModeResponse × List (String × Nat) :=
  if data.state = "FAILED" then
    (.error ("AI Mode failed: " ++ joinReasons data.answerSkippedReasons), [])
  else
    let tr :=
      match data.references with
      | some refs => transformReferences env refs
      | none => ([], [])
    let answer := renumberAnswer data.answerText
    let citations := reassignNumbers 0 tr.1
    (.ok { answer := answer, citations := citations, query := query }, tr.2)

/-- The uppercase display form `source_type.toUpperCase()`. -/
def SourceType.upper : SourceType → String
  | .pdf => "PDF"
  | .docx => "DOCX"

/-- One entry of `SearchResults.results` as built by the AI-mode
`VertexSearchProvider.search` (`vertex.ts` lines 347-409).  The JavaScript
float score `1 - index * 0.1` is modelled as the exact rational. -/
structure SearchResultItem where
  title : String
  url : String
  content : String
  score : ℚ
  raw_content : String
  source_type : Option SourceType := none
  document_id : Option String := none
  page_number : Option Nat := none
  section_heading : Option String := none
  video_id : Option String := none
  timestamp_start : Option Nat := none
  timestamp_end : Option Nat := none
  channel : Option String := none
deriving DecidableEq, Repr

/-- The `SearchResults` value returned by a search provider, with the
AI-mode answer (bytes) that the second variant attaches on success;
`getEmptyResults` leaves it absent. -/
structure SearchResults where
  results : List SearchResultItem
  query : String
  images : List String
  number_of_results : Nat
  ai_mode_answer : Option (List Nat) := none
deriving DecidableEq, Repr

/-- `VertexSearchProvider.getEmptyResults` (`vertex.ts` lines 476-483). -/
def VertexSearchProvider.getEmptyResults (query : String) : SearchResults :=
  { results := []
    query := query
    images := []
    number_of_results := 0 }

/-- The result item built from the reference at zero-based position `index`
(`vertex.ts` lines 348-408); the signed-URL fetch for PDF pages is the
injected environment, its own try/catch turning every failure into an
unchanged empty `url`. -/
def vertexTransformRef (env : String → Nat → Option String) (index : Nat)
    (ref : VertexReference) : SearchResultItem :=
  match ref.structData with
  | none =>
    { title := if ref.title.isEmpty then "Unknown" else ref.title
      url := ""
      content := ref.content
      score := 1 - (index : ℚ) / 10
      raw_content := ref.content }
  | some sd =>
    if sd.source_type.isSome ∧ truthyStr sd.document_id then
      let url :=
        if sd.source_type = some .pdf ∧ truthyNat sd.page_number then
          (env (sd.document_id.getD "") (sd.page_number.getD 0)).getD ""
        else ""
      { title := sd.title ++ " (" ++ (sd.source_type.getD .pdf).upper ++ ", Page "
          ++ toString (if truthyNat sd.page_number then sd.page_number.getD 0 else 1) ++ ")"
        url := url
        content := if ref.content.isEmpty then sd.transcript.getD "" else ref.content
        score := 1 - (index : ℚ) / 10
        raw_content := ref.content
        source_type := sd.source_type
        document_id := sd.document_id
        page_number := sd.page_number
        section_heading := sd.section_heading }
    else
      let timestamp := if truthyNat sd.timestamp_start then sd.timestamp_start.getD 0 else 0
      let youtubeUrl :=
        if truthyStr sd.video_id then
          "https://youtube.com/watch?v=" ++ sd.video_id.getD "" ++ "&t="
            ++ toString timestamp ++ "s"
        else ""
      { title := sd.title
        url := youtubeUrl
        content := if ref.content.isEmpty then sd.transcript.getD "" else ref.content
        score := 1 - (index : ℚ) / 10
        raw_content := ref.content
        video_id := sd.video_id
        timestamp_start := sd.timestamp_start
        timestamp_end := sd.timestamp_end
        channel := sd.channel }

/-- `data.answer.references?.map((ref, index) => ...) || []` of the AI-mode
search (`vertex.ts` lines 347-410). -/
def vertexTransformRefsGo (env : String → Nat → Option String) (index : Nat) :
    List VertexReference → List SearchResultItem
  | [] => []
  | r :: rs => vertexTransformRef env index r :: vertexTransformRefsGo env (index + 1) rs

/-- The parsed body `data.answer` of the AI-mode answer response consumed by
`VertexSearchProvider.search` (`vertex.ts` interface `VertexAnswerResponse`),
with the answer text as UTF-8 bytes for the byte-offset editor. -/
structure VertexAnswerData where
  answerText : List Nat
  citations : Option (List VertexCitation) := none
  references : Option (List VertexReference) := none
  state : String
  answerSkippedReasons : Option (List String) := none
deriving DecidableEq, Repr

/-- How the external exchange of `VertexSearchProvider.search` went:
token acquisition rejected, the HTTP response was not OK, some other
exception was thrown inside the `try` block, or a response body was
obtained. -/
inductive VertexFetchOutcome where
  | tokenError
  | httpNotOk
  | thrown
  | success (data : VertexAnswerData)
deriving DecidableEq, Repr

/-- The AI-mode `VertexSearchProvider.search` (`vertex.ts` lines 290-474)
over an explicit fetch outcome and signed-URL environment:
every failure of the external call and a `FAILED` answer state produce
`getEmptyResults(query)`; a successful response is transformed into result
items and the answer text annotated with citation markers. -/
def VertexSearchProvider.search (outcome : VertexFetchOutcome)
    (env : String → Nat → Option String) (query : String) : SearchResults :=
  match outcome with
  | .tokenError => VertexSearchProvider.getEmptyResults query
  | .httpNotOk => VertexSearchProvider.getEmptyResults query
  | .thrown => VertexSearchProvider.getEmptyResults query
  | .success data =>
    if data.state = "FAILED" then VertexSearchProvider.getEmptyResults query
    else
      let results := vertexTransformRefsGo env 0 (data.references.getD [])
      let aiModeAnswer := insertCitationMarkersNode data.answerText data.citations
      { results := results
        query := query
        images := []
        number_of_results := results.length
        ai_mode_answer := some aiModeAnswer }

/-- Sum of the marker byte lengths of the first `i` citations of a list. -/
def prefixLens (cits : List VertexCitation) (i : Nat) : Nat :=
  ((cits.take i).map markerLen).sum

/-- A lookup environment in which every signed-URL request fails. -/
def noUrlEnv : String → Nat → Option String := fun _ _ => none

/-- Sample metadata of a PDF page: document `"abc"`, page `4`. -/
def pdfSdAbc : VertexStructData :=
  { title := "Doc", source_type := some .pdf, document_id := some "abc",
    page_number := some 4 }

/-- Sample reference record pointing at page 4 of document `"abc"`. -/
def pdfRefAbc : VertexReference :=
  { title := "Doc", content := "chunk", structData := some pdfSdAbc }

/-- Sample reference record without `structData` (YouTube fallback branch). -/
def ytRef : VertexReference :=
  { title := "Video", content := "t", structData := none }

/-- Sample successful answer whose text cites only raw marker `[1]` while the
reference list has two entries. -/
def qaDataTwoRefs : VertexAnswer :=
  { answerText := "x[1]".data, references := some [ytRef, ytRef],
    state := "SUCCEEDED" }

/-- Sample failed answer with a single skip reason. -/
def failedAnswer : VertexAnswer :=
  { answerText := [], state := "FAILED",
    answerSkippedReasons := some ["NO_RELEVANT_CONTENT"],
    references := some [pdfRefAbc] }

/-! ## Helper lemmas -/

theorem splice_length (text marker : List Nat) (pos : Nat) :
    (text.take pos ++ marker ++ text.drop pos).length = text.length + marker.length := by
  simp only [List.length_append, List.length_take, List.length_drop]
  omega

theorem insertLoop_take_eq (cits : List VertexCitation) :
    ∀ (text marked : List Nat) (delta p : Nat),
    p ≤ text.length → (∀ c ∈ cits, p ≤ c.endIndex + delta) →
    (insertLoop marked delta text cits).take p = text.take p := by
  induction cits with
  | nil => intro text marked delta p _ _; rfl
  | cons c rest ih =>
    intro text marked delta p hp hpos
    simp only [insertLoop]
    by_cases h1 : c.endIndex ∈ marked
    · rw [if_pos h1]
      exact ih text marked delta p hp fun d hd => hpos d (List.mem_cons_of_mem c hd)
    · rw [if_neg h1]
      by_cases h2 : (validRefs c).isEmpty = true
      · rw [if_pos h2]
        exact ih text (c.endIndex :: marked) delta p hp
          fun d hd => hpos d (List.mem_cons_of_mem c hd)
      · rw [if_neg h2]
        have hple : p ≤ c.endIndex + delta := hpos c (List.mem_cons_self c rest)
        have hrec := ih (text.take (c.endIndex + delta) ++ markerBytes (validRefs c)
            ++ text.drop (c.endIndex + delta)) (c.endIndex :: marked)
            (delta + (markerBytes (validRefs c)).length) p
            (by rw [splice_length]; omega)
            (fun d hd => le_trans (hpos d (List.mem_cons_of_mem c hd)) (by omega))
        rw [hrec]
        have hlen : p ≤ (text.take (c.endIndex + delta)).length := by
          simp only [List.length_take]
          omega
        rw [List.append_assoc, List.take_append_of_le_length hlen, List.take_take,
          Nat.min_eq_left hple]

theorem insertLoop_placement (cits : List VertexCitation) :
    ∀ (text marked : List Nat) (delta : Nat),
    ((cits.map (·.endIndex)).Pairwise (· < ·)) →
    (∀ c ∈ cits, c.endIndex ∉ marked) →
    (∀ c ∈ cits, c.endIndex + delta ≤ text.length) →
    (∀ c ∈ cits, (validRefs c).isEmpty = false) →
    ∀ i, (hi : i < cits.length) →
    ((insertLoop marked delta text cits).drop (cits[i].endIndex + delta + prefixLens cits i)).take
        (markerLen cits[i]) = markerBytes (validRefs cits[i]) := by
  induction cits with
  | nil => intro text marked delta _ _ _ _ i hi; exact absurd hi (by simp)
  | cons c rest ih =>
    intro text marked delta hpair hmark hbound hrefs i hi
    have hcmark : c.endIndex ∉ marked := hmark c (List.mem_cons_self c rest)
    have hcrefs : (validRefs c).isEmpty = false := hrefs c (List.mem_cons_self c rest)
    have hcbound : c.endIndex + delta ≤ text.length := hbound c (List.mem_cons_self c rest)
    have hhead : ∀ d ∈ rest, c.endIndex < d.endIndex := by
      intro d hd
      exact (List.pairwise_cons.mp hpair).1 d.endIndex
        (List.mem_map_of_mem (fun x => x.endIndex) hd)
    simp only [insertLoop]
    rw [if_neg hcmark, if_neg (show ¬((validRefs c).isEmpty = true) by simp [hcrefs])]
    set m := markerBytes (validRefs c) with hm
    set pos := c.endIndex + delta with hpos
    set text2 := text.take pos ++ m ++ text.drop pos with htext2
    have htext2len : text2.length = text.length + m.length := splice_length ..
    cases i with
    | zero =>
      have hfix : (insertLoop (c.endIndex :: marked) (delta + m.length) text2 rest).take
          (pos + m.length) = text2.take (pos + m.length) := by
        apply insertLoop_take_eq
        · omega
        · intro d hd
          have := hhead d hd
          omega
      have htake : text2.take (pos + m.length) = text.take pos ++ m := by
        rw [htext2, List.append_assoc, List.take_append_eq_append_take,
          List.take_of_length_le (l := text.take pos) (by simp only [List.length_take]; omega),
          List.take_append_eq_append_take,
          List.take_of_length_le (l := m) (by simp only [List.length_take]; omega)]
        simp only [List.length_take]
        have h1 : pos + m.length - min pos text.length - m.length = 0 := by omega
        rw [h1, List.take_zero, List.append_nil]
      simp only [List.getElem_cons_zero, prefixLens, List.take_zero, List.map_nil,
        List.sum_nil, Nat.add_zero]
      have hdt : ((insertLoop (c.endIndex :: marked) (delta + m.length) text2 rest).drop
          pos).take (markerLen c) =
          ((insertLoop (c.endIndex :: marked) (delta + m.length) text2 rest).take
            (pos + m.length)).drop pos := by
        rw [List.drop_take, Nat.add_sub_cancel_left]
        simp only [markerLen, ← hm]
      rw [hdt, hfix, htake, List.drop_left' (by simp only [List.length_take]; omega)]
    | succ j =>
      have hj : j < rest.length := by simpa using hi
      have hrec := ih text2 (c.endIndex :: marked) (delta + m.length)
        (List.pairwise_cons.mp hpair).2
        (by
          intro d hd
          simp only [List.mem_cons]
          push_neg
          exact ⟨Nat.ne_of_gt (hhead d hd), hmark d (List.mem_cons_of_mem c hd)⟩)
        (by
          intro d hd
          have := hbound d (List.mem_cons_of_mem c hd)
          omega)
        (fun d hd => hrefs d (List.mem_cons_of_mem c hd)) j hj
      have harith : rest[j].endIndex + (delta + m.length) + prefixLens rest j =
          (c :: rest)[j + 1].endIndex + delta + prefixLens (c :: rest) (j + 1) := by
        simp only [List.getElem_cons_succ, prefixLens, List.take_succ_cons, List.map_cons,
          List.sum_cons, markerLen, ← hm]
        omega
      rw [harith] at hrec
      simpa using hrec

theorem transformRefsGo_length (env : String → Nat → Option String) :
    ∀ (refs : List VertexReference) (k : Nat),
    (transformRefsGo env k refs).1.length = refs.length := by
  intro refs
  induction refs with
  | nil => intro k; rfl
  | cons r rs ih => intro k; simp [transformRefsGo, ih]

theorem transformRefsGo_log (env : String → Nat → Option String) :
    ∀ (refs : List VertexReference) (k : Nat),
    (transformRefsGo env k refs).2 = refs.filterMap lookupKeyOf := by
  intro refs
  induction refs with
  | nil => intro k; rfl
  | cons r rs ih =>
    intro k
    simp only [transformRefsGo, List.filterMap_cons, ih]
    cases lookupKeyOf r <;> simp [Option.toList]

theorem transformRefsGo_getElem (env : String → Nat → Option String) :
    ∀ (refs : List VertexReference) (k j : Nat),
    (transformRefsGo env k refs).1[j]? = refs[j]?.map (transformOneRef env (k + j)) := by
  intro refs
  induction refs with
  | nil => intro k j; simp [transformRefsGo]
  | cons r rs ih =>
    intro k j
    cases j with
    | zero => simp [transformRefsGo]
    | succ j =>
      have harith : k + 1 + j = k + (j + 1) := by omega
      simp only [transformRefsGo, List.getElem?_cons_succ, ih (k + 1) j, harith]

theorem reassignNumbers_map :
    ∀ (l : List AIModeCitation) (k : Nat),
    (reassignNumbers k l).map (·.citationNumber) = List.range' (k + 1) l.length := by
  intro l
  induction l with
  | nil => intro k; rfl
  | cons c cs ih =>
    intro k
    simp only [reassignNumbers, List.map_cons, List.length_cons, List.range'_succ, ih (k + 1)]

theorem decDigitsCore_lt : ∀ (fuel n : Nat) (acc : List Nat),
    (∀ b ∈ acc, b < 128) → ∀ b ∈ decDigitsCore fuel n acc, b < 128 := by
  intro fuel
  induction fuel with
  | zero => intro n acc hacc b hb; exact hacc b hb
  | succ f ih =>
    intro n acc hacc b hb
    simp only [decDigitsCore] at hb
    by_cases h : n < 10
    · rw [if_pos h] at hb
      rcases List.mem_cons.mp hb with h1 | h1
      · omega
      · exact hacc b h1
    · rw [if_neg h] at hb
      refine ih (n / 10) ((48 + n % 10) :: acc) ?_ b hb
      intro b1 hb1
      rcases List.mem_cons.mp hb1 with h1 | h1
      · have := Nat.mod_lt n (show 0 < 10 by omega)
        omega
      · exact hacc b1 h1

theorem markerBytes_lt (refs : List Nat) : ∀ b ∈ markerBytes refs, b < 128 := by
  intro b hb
  simp only [markerBytes, List.mem_flatten, List.mem_map] at hb
  obtain ⟨piece, ⟨idx, _, rfl⟩, hmem⟩ := hb
  rcases List.mem_cons.mp hmem with h1 | h1
  · omega
  · rcases List.mem_append.mp h1 with h2 | h2
    · exact decDigitsCore_lt (idx + 1 + 1) (idx + 1) [] (by simp) b h2
    · simp only [List.mem_singleton] at h2
      omega

theorem utf8Chars_of_ascii : ∀ (l : List Nat), (∀ b ∈ l, b < 128) → Utf8Chars l := by
  intro l
  induction l with
  | nil => intro _; exact Utf8Chars.nil
  | cons b bs ih =>
    intro h
    exact Utf8Chars.ascii (h b (List.mem_cons_self b bs))
      (ih fun b1 hb1 => h b1 (List.mem_cons_of_mem b hb1))

theorem Utf8Chars.append : ∀ {A B : List Nat}, Utf8Chars A → Utf8Chars B →
    Utf8Chars (A ++ B) := by
  intro A B hA hB
  induction hA with
  | nil => exact hB
  | ascii h _ ih => exact Utf8Chars.ascii h ih
  | two h1 h2 h3 h4 _ ih => exact Utf8Chars.two h1 h2 h3 h4 ih
  | three h1 h2 h3 h4 h5 h6 h7 h8 _ ih => exact Utf8Chars.three h1 h2 h3 h4 h5 h6 h7 h8 ih
  | four h1 h2 h3 h4 h5 h6 h7 h8 h9 h10 _ ih =>
    exact Utf8Chars.four h1 h2 h3 h4 h5 h6 h7 h8 h9 h10 ih

theorem Utf8Chars.leftCancel : ∀ {A B : List Nat}, Utf8Chars A →
    Utf8Chars (A ++ B) → Utf8Chars B := by
  intro A B hA
  induction hA with
  | nil => intro h; exact h
  | ascii hb _ ih =>
    intro h
    rw [List.cons_append] at h
    generalize hL : _ ++ B = L at h
    cases h with
    | ascii _ htail => exact ih (hL ▸ htail)
    | two h1 _ _ _ _ => omega
    | three h1 _ _ _ _ _ _ _ _ => omega
    | four h1 _ _ _ _ _ _ _ _ _ _ => omega
  | two hb hb2 _ _ _ ih =>
    intro h
    rw [List.cons_append, List.cons_append] at h
    generalize hL : _ ++ B = L at h
    cases h with
    | ascii h1 _ => omega
    | two _ _ _ _ htail => exact ih (hL ▸ htail)
    | three h1 _ _ _ _ _ _ _ _ => omega
    | four h1 _ _ _ _ _ _ _ _ _ _ => omega
  | three hb hb2 _ _ _ _ _ _ _ ih =>
    intro h
    rw [List.cons_append, List.cons_append, List.cons_append] at h
    generalize hL : _ ++ B = L at h
    cases h with
    | ascii h1 _ => omega
    | two _ h2 _ _ _ => omega
    | three _ _ _ _ _ _ _ _ htail => exact ih (hL ▸ htail)
    | four h1 _ _ _ _ _ _ _ _ _ _ => omega
  | four hb hb2 _ _ _ _ _ _ _ _ _ ih =>
    intro h
    rw [List.cons_append, List.cons_append, List.cons_append, List.cons_append] at h
    generalize hL : _ ++ B = L at h
    cases h with
    | ascii h1 _ => omega
    | two _ h2 _ _ _ => omega
    | three _ h2 _ _ _ _ _ _ _ => omega
    | four _ _ _ _ _ _ _ _ _ _ htail => exact ih (hL ▸ htail)

theorem utf8SanitizeCore_eq_of_chars : ∀ {l : List Nat}, Utf8Chars l →
    ∀ fuel, l.length < fuel → utf8SanitizeCore fuel l = l := by
  intro l h
  induction h with
  | nil =>
    intro fuel hf
    cases fuel with
    | zero => omega
    | succ f => rfl
  | ascii hb _ ih =>
    intro fuel hf
    cases fuel with
    | zero => omega
    | succ f =>
      simp only [utf8SanitizeCore]
      rw [if_pos hb, ih f (by simp only [List.length_cons] at hf; omega)]
  | two h1 h2 h3 h4 _ ih =>
    intro fuel hf
    cases fuel with
    | zero => omega
    | succ f =>
      simp only [utf8SanitizeCore]
      rw [if_neg (by omega), if_pos ⟨h1, h2⟩]
      simp only [utf8SanTwo]
      rw [if_pos ⟨h3, h4⟩, ih f (by simp only [List.length_cons] at hf; omega)]
  | three h1 h2 h3 h4 h5 h6 h7 h8 _ ih =>
    intro fuel hf
    cases fuel with
    | zero => omega
    | succ f =>
      simp only [utf8SanitizeCore]
      rw [if_neg (by omega), if_neg (by omega), if_pos ⟨h1, h2⟩]
      simp only [utf8SanThree]
      rw [if_pos ⟨⟨h3, h4⟩, h7, h8⟩]
      simp only [utf8SanThreeTail]
      rw [if_pos ⟨h5, h6⟩, ih f (by simp only [List.length_cons] at hf; omega)]
  | four h1 h2 h3 h4 h5 h6 h7 h8 h9 h10 _ ih =>
    intro fuel hf
    cases fuel with
    | zero => omega
    | succ f =>
      simp only [utf8SanitizeCore]
      rw [if_neg (by omega), if_neg (by omega), if_neg (by omega), if_pos ⟨h1, h2⟩]
      simp only [utf8SanFour]
      rw [if_pos ⟨⟨h3, h4⟩, h9, h10⟩]
      simp only [utf8SanFourTail1]
      rw [if_pos ⟨h5, h6⟩]
      simp only [utf8SanFourTail2]
      rw [if_pos ⟨h7, h8⟩, ih f (by simp only [List.length_cons] at hf; omega)]

theorem utf8Sanitize_eq_of_chars {l : List Nat} (h : Utf8Chars l) : utf8Sanitize l = l :=
  utf8SanitizeCore_eq_of_chars h (l.length + 1) (by omega)

theorem splice_take_decomp (text m : List Nat) (pos q : Nat)
    (hpos : pos ≤ text.length) (hq : pos ≤ q) :
    (text.take pos ++ m ++ text.drop pos).take (q + m.length) =
      text.take pos ++ m ++ (text.take q).drop pos := by
  rw [List.append_assoc, List.take_append_eq_append_take,
    List.take_of_length_le (l := text.take pos) (by simp only [List.length_take]; omega),
    List.take_append_eq_append_take]
  have hlen : (text.take pos).length = pos := by
    simp only [List.length_take]
    omega
  rw [hlen, List.take_of_length_le (l := m) (by omega)]
  have h2 : q + m.length - pos - m.length = q - pos := by omega
  rw [h2, ← List.drop_take, ← List.append_assoc]

/-- On texts whose insertion positions all fall on UTF-8 character
boundaries, the loop with the per-iteration buffer/string round trips
(`insertLoopNode`) computes the same bytes as the raw splice loop
(`insertLoop`): every intermediate buffer is then a concatenation of
well-formed characters, on which the round trip is the identity. -/
theorem insertLoopNode_eq_insertLoop (cits : List VertexCitation) :
    ∀ (text marked : List Nat) (delta : Nat),
    ((cits.map (·.endIndex)).Pairwise (· < ·)) →
    Utf8Chars text →
    (∀ c ∈ cits, Utf8Chars (text.take (c.endIndex + delta))) →
    (∀ c ∈ cits, c.endIndex + delta ≤ text.length) →
    insertLoopNode marked delta text cits = insertLoop marked delta text cits := by
  induction cits with
  | nil => intro text marked delta _ _ _ _; rfl
  | cons c rest ih =>
    intro text marked delta hpair htext hbnd hlen
    have hpair2 : (rest.map (·.endIndex)).Pairwise (· < ·) :=
      (List.pairwise_cons.mp hpair).2
    have hhead : ∀ d ∈ rest, c.endIndex < d.endIndex := fun d hd =>
      (List.pairwise_cons.mp hpair).1 d.endIndex
        (List.mem_map_of_mem (fun x => x.endIndex) hd)
    simp only [insertLoopNode, insertLoop]
    by_cases h1 : c.endIndex ∈ marked
    · rw [if_pos h1, if_pos h1]
      exact ih text marked delta hpair2 htext
        (fun d hd => hbnd d (List.mem_cons_of_mem c hd))
        (fun d hd => hlen d (List.mem_cons_of_mem c hd))
    · rw [if_neg h1, if_neg h1]
      by_cases h2 : (validRefs c).isEmpty = true
      · rw [if_pos h2, if_pos h2]
        exact ih text (c.endIndex :: marked) delta hpair2 htext
          (fun d hd => hbnd d (List.mem_cons_of_mem c hd))
          (fun d hd => hlen d (List.mem_cons_of_mem c hd))
      · rw [if_neg h2, if_neg h2]
        have hheadlen : c.endIndex + delta ≤ text.length :=
          hlen c (List.mem_cons_self c rest)
        have hheadchars : Utf8Chars (text.take (c.endIndex + delta)) :=
          hbnd c (List.mem_cons_self c rest)
        have hmchars : Utf8Chars (markerBytes (validRefs c)) :=
          utf8Chars_of_ascii _ (markerBytes_lt _)
        have hdropchars : Utf8Chars (text.drop (c.endIndex + delta)) := by
          apply Utf8Chars.leftCancel hheadchars
          rw [List.take_append_drop]
          exact htext
        have hsplice : Utf8Chars (text.take (c.endIndex + delta)
            ++ markerBytes (validRefs c) ++ text.drop (c.endIndex + delta)) :=
          Utf8Chars.append (Utf8Chars.append hheadchars hmchars) hdropchars
        rw [utf8Sanitize_eq_of_chars hsplice]
        apply ih _ _ _ hpair2 hsplice
        · intro d hd
          have hdq : c.endIndex + delta ≤ d.endIndex + delta := by
            have := hhead d hd
            omega
          have harr : d.endIndex + (delta + (markerBytes (validRefs c)).length) =
              (d.endIndex + delta) + (markerBytes (validRefs c)).length := by omega
          rw [harr, splice_take_decomp text (markerBytes (validRefs c))
            (c.endIndex + delta) (d.endIndex + delta) hheadlen hdq]
          apply Utf8Chars.append (Utf8Chars.append hheadchars hmchars)
          apply Utf8Chars.leftCancel hheadchars
          have hdecomp : text.take (c.endIndex + delta)
              ++ (text.take (d.endIndex + delta)).drop (c.endIndex + delta) =
              text.take (d.endIndex + delta) := by
            have h3 := List.take_append_drop (c.endIndex + delta)
              (text.take (d.endIndex + delta))
            rwa [List.take_take, Nat.min_eq_left hdq] at h3
          rw [hdecomp]
          exact hbnd d (List.mem_cons_of_mem c hd)
        · intro d hd
          rw [splice_length]
          have := hlen d (List.mem_cons_of_mem c hd)
          omega

/-! ## Claims -/

/-- Claim C1 (corrected), counterexample: the renumbering pass of
`queryAIMode` does not assign dense numbers by first appearance in reading
order.  For raw indices appearing in order `[5, 2, 5, 9]` the claim demands
the output `5→1, 2→2, 9→3`, i.e. text `a[1]b[2]c[1]d[3]`; the code instead
sorts the distinct raw numbers ascending (`2→1, 5→2, 9→3`) and, rewriting
highest-first by global replacement, lets the rewrite of `[5]` to `[2]`
collide with the pending raw `[2]`, producing `a[1]b[1]c[1]d[3]`. -/
theorem C1_renumber_counterexample :
    renumberAnswer "a[5]b[2]c[5]d[9]".data = "a[1]b[1]c[1]d[3]".data
    ∧ renumberAnswer "a[5]b[2]c[5]d[9]".data ≠ "a[1]b[2]c[1]d[3]".data := by
  constructor
  · decide
  · decide

/-- Claim C1 (corrected), amended claim: the renumbering pass assigns dense
numbers to the distinct raw marker numbers in ascending numeric order (the
`k`-th smallest raw number is assigned `k`), rewriting by one global
replacement per raw number from the highest down; when an assigned number
equals a smaller raw number not yet processed, the replacements cascade, so
raw order `[5, 2, 5, 9]` yields final markers `[1], [1], [1], [3]`.  When no
such collision exists (e.g. raw numbers `[1, 5]`), the ascending-order
assignment is applied faithfully (`1→1, 5→2`). -/
theorem C1_renumber_amended :
    renumberAnswer "a[5]b[2]c[5]d[9]".data = "a[1]b[1]c[1]d[3]".data
    ∧ renumberAnswer "a[1]b[5]".data = "a[1]b[2]".data := by
  constructor
  · decide
  · decide

/-- Claim C2 (corrected), counterexample: two citation spans sharing
`endOffset = 1` on the two-byte text `"ab"`, citing reference indices `{0}`
and `{1}`, do not produce the merged marker `[1][2]` (bytes
`[97, 91, 49, 93, 91, 50, 93, 98]`): the `markedPositions` set makes the loop
skip the second span entirely, so only `[1]` is inserted. -/
theorem C2_sharedOffset_counterexample :
    insertCitationMarkers [97, 98] (some [⟨1, [some 0]⟩, ⟨1, [some 1]⟩]) =
      [97, 91, 49, 93, 98]
    ∧ insertCitationMarkers [97, 98] (some [⟨1, [some 0]⟩, ⟨1, [some 1]⟩]) ≠
      [97, 91, 49, 93, 91, 50, 93, 98] := by
  constructor
  · decide
  · decide

/-- Claim C2 (corrected), amended claim: spans sharing an `endOffset` are not
merged; the first span in stable sorted order inserts its marker and every
later span at the same offset is dropped.  A union-style marker such as
`[1][2]` arises only from the several `sourceIndices` of one single span. -/
theorem C2_sharedOffset_amended :
    insertCitationMarkers [97, 98] (some [⟨1, [some 0]⟩, ⟨1, [some 1]⟩]) =
      [97, 91, 49, 93, 98]
    ∧ insertCitationMarkers [97, 98] (some [⟨1, [some 0, some 1]⟩]) =
      [97, 91, 49, 93, 91, 50, 93, 98] := by
  constructor
  · decide
  · decide

/-- Claim C3 (corrected), counterexample: a span whose `endOffset` (100)
exceeds the byte length of the text `"ab"` (2) is not dropped: the code has
no bounds check, `Buffer.subarray` clamps the position, and the marker `[1]`
is appended at the end of the text. -/
theorem C3_overflowSpan_counterexample :
    insertCitationMarkers [97, 98] (some [⟨100, [some 0]⟩]) = [97, 98, 91, 49, 93]
    ∧ insertCitationMarkers [97, 98] (some [⟨100, [some 0]⟩]) ≠ [97, 98] := by
  constructor
  · decide
  · decide

/-- Claim C3 (corrected), amended claim: a citation span whose `endOffset` is
at least the byte length of the answer text is not dropped and not fatal: the
splice position clamps to the end of the buffer, so its marker is appended
after the final byte of the text. -/
theorem C3_overflowSpan_amended (text : List Nat) (c : VertexCitation)
    (h1 : text.length ≤ c.endIndex) (h2 : (validRefs c).isEmpty = false) :
    insertCitationMarkers text (some [c]) = text ++ markerBytes (validRefs c) := by
  have hsort : sortCitations [c] = [c] := rfl
  simp only [insertCitationMarkers, List.isEmpty_cons, Bool.false_eq_true, if_neg,
    not_false_eq_true, hsort]
  simp only [insertLoop, List.not_mem_nil, if_neg, not_false_eq_true, h2,
    Bool.false_eq_true, Nat.add_zero]
  rw [List.take_of_length_le (by omega), List.drop_eq_nil_of_le (by omega),
    List.append_nil]

/-- Witness for `C3_overflowSpan_amended` at the concrete text `"ab"` and a
span with `endOffset = 100`. -/
theorem C3_overflowSpan_amended_witness :
    ([97, 98] : List Nat).length ≤ (VertexCitation.mk 100 [some 0]).endIndex
    ∧ (validRefs (VertexCitation.mk 100 [some 0])).isEmpty = false
    ∧ insertCitationMarkers [97, 98] (some [VertexCitation.mk 100 [some 0]]) =
      [97, 98] ++ markerBytes (validRefs (VertexCitation.mk 100 [some 0])) :=
  ⟨by decide, by decide, C3_overflowSpan_amended [97, 98] ⟨100, [some 0]⟩ (by decide) (by decide)⟩

/-- Claim C4 (corrected), counterexample: with a reference list of two
entries and an answer text citing only the raw marker `[1]`, the number of
distinct source indices cited is 1, yet the output citation list numbers
both references `[1, 2]` — the never-cited second reference is included and
numbered rather than excluded. -/
theorem C4_numbering_counterexample :
    ∃ r, (queryAIModeLog noUrlEnv "q" qaDataTwoRefs).1 = .ok r
      ∧ r.citations.map (·.citationNumber) = [1, 2]
      ∧ jsSetDedup (scanMarkers qaDataTwoRefs.answerText) = [1]
      ∧ ([1, 2] : List Nat) ≠ [1] :=
  ⟨_, rfl, by decide, by decide, by decide⟩

/-- Claim C4 (corrected), amended claim: the `citationNumber` values of the
returned citation list are exactly `{1, ..., K}` in order, where `K` is the
length of the upstream reference list — every reference receives a number by
position, whether or not any surviving span cites it. -/
theorem C4_numbering_amended (env : String → Nat → Option String) (q : String)
    (data : VertexAnswer) (refs : List VertexReference)
    (h1 : data.state ≠ "FAILED") (h2 : data.references = some refs) :
    ∃ r, (queryAIModeLog env q data).1 = .ok r
      ∧ r.citations.map (·.citationNumber) = List.range' 1 refs.length := by
  have hlog : queryAIModeLog env q data =
      (.ok { answer := renumberAnswer data.answerText
             citations := reassignNumbers 0 (transformReferences env refs).1
             query := q }, (transformReferences env refs).2) := by
    simp only [queryAIModeLog, if_neg h1, h2]
  refine ⟨_, congrArg Prod.fst hlog, ?_⟩
  rw [reassignNumbers_map, transformReferences, transformRefsGo_length]

/-- Witness for `C4_numbering_amended` at the sample two-reference answer. -/
theorem C4_numbering_amended_witness :
    qaDataTwoRefs.state ≠ "FAILED"
    ∧ qaDataTwoRefs.references = some [ytRef, ytRef]
    ∧ ∃ r, (queryAIModeLog noUrlEnv "q" qaDataTwoRefs).1 = .ok r
      ∧ r.citations.map (·.citationNumber) = List.range' 1 ([ytRef, ytRef].length) :=
  ⟨by decide, rfl, C4_numbering_amended noUrlEnv "q" qaDataTwoRefs [ytRef, ytRef]
    (by decide) rfl⟩

/-- Claim C5 (corrected), counterexample: the placement formula fails on the
program once the per-iteration buffer/string round trip is modelled.  On the
valid UTF-8 text `"é"` (bytes `[195, 169]`) with citations at the ascending
in-bounds offsets 1 and 2 — offsets the claim quantifies over, but which sit
inside the two-byte character — the first splice produces an invalid buffer,
the round trip replaces the split character's bytes by U+FFFD (three bytes
each), relocating the first marker, and the second splice then lands inside
the first marker: the final text is `"�[1[2]]�"`, and marker 1 does not
start at byte `o_1 + 0 = 1`. -/
theorem C5_offset_drift_counterexample :
    isValidUtf8 [195, 169] = true
    ∧ (([⟨1, [some 0]⟩, ⟨2, [some 1]⟩] : List VertexCitation).map (·.endIndex)).Pairwise (· < ·)
    ∧ (∀ c ∈ ([⟨1, [some 0]⟩, ⟨2, [some 1]⟩] : List VertexCitation),
        c.endIndex ≤ ([195, 169] : List Nat).length)
    ∧ (∀ c ∈ ([⟨1, [some 0]⟩, ⟨2, [some 1]⟩] : List VertexCitation),
        (validRefs c).isEmpty = false)
    ∧ insertLoopNode [] 0 [195, 169] [⟨1, [some 0]⟩, ⟨2, [some 1]⟩] =
      [239, 191, 189, 91, 49, 91, 50, 93, 93, 239, 191, 189]
    ∧ ((insertLoopNode [] 0 [195, 169] [⟨1, [some 0]⟩, ⟨2, [some 1]⟩]).drop
        (([⟨1, [some 0]⟩, ⟨2, [some 1]⟩] : List VertexCitation)[0].endIndex +
          prefixLens [⟨1, [some 0]⟩, ⟨2, [some 1]⟩] 0)).take
        (markerLen ([⟨1, [some 0]⟩, ⟨2, [some 1]⟩] : List VertexCitation)[0]) ≠
      markerBytes (validRefs ([⟨1, [some 0]⟩, ⟨2, [some 1]⟩] : List VertexCitation)[0]) :=
  ⟨by decide, by decide, by decide, by decide, by decide, by decide⟩

/-- Claim C5 (corrected), amended claim: for citations with strictly
ascending original byte offsets within the valid UTF-8 answer text, each
offset falling on a character boundary (its byte prefix is itself a
concatenation of well-formed characters) and each citation carrying at least
one valid reference index, the insertion loop — including its per-iteration
buffer/string round trips — places the marker of citation `i` starting at
byte position `endOffset_i + L_1 + ... + L_(i-1)` of the final text, where
`L_j` is the byte length of marker `j`: the loop tracks the running delta of
bytes inserted so far, splices marker `i` at `endOffset_i + delta` and then
grows the delta by the marker's byte length.  At offsets inside a multi-byte
character the round trip substitutes replacement characters and relocates
earlier bytes, and the formula fails (see the counterexample). -/
theorem C5_offset_drift_amended (text : List Nat) (cits : List VertexCitation)
    (htext : Utf8Chars text)
    (hcuts : ∀ c ∈ cits, Utf8Chars (text.take c.endIndex))
    (hpair : (cits.map (·.endIndex)).Pairwise (· < ·))
    (hbound : ∀ c ∈ cits, c.endIndex ≤ text.length)
    (hrefs : ∀ c ∈ cits, (validRefs c).isEmpty = false)
    (i : Nat) (hi : i < cits.length) :
    ((insertLoopNode [] 0 text cits).drop (cits[i].endIndex + prefixLens cits i)).take
        (markerLen cits[i]) = markerBytes (validRefs cits[i]) := by
  rw [insertLoopNode_eq_insertLoop cits text [] 0 hpair htext
    (by simpa using hcuts) (by simpa using hbound)]
  have h := insertLoop_placement cits text [] 0 hpair (by simp)
    (by simpa using hbound) hrefs i hi
  simpa using h

/-- Witness for `C5_offset_drift_amended`: on the five-byte ASCII text
`"abcde"` (where every offset is a character boundary) with markers `[1]` at
offset 2 and `[2]` at offset 4, the second marker starts at byte
`4 + 3 = 7` of the final text `"ab[1]cd[2]e"`. -/
theorem C5_offset_drift_amended_witness :
    Utf8Chars [97, 98, 99, 100, 101]
    ∧ (∀ c ∈ ([⟨2, [some 0]⟩, ⟨4, [some 1]⟩] : List VertexCitation),
        Utf8Chars (([97, 98, 99, 100, 101] : List Nat).take c.endIndex))
    ∧ (([⟨2, [some 0]⟩, ⟨4, [some 1]⟩] : List VertexCitation).map (·.endIndex)).Pairwise (· < ·)
    ∧ (∀ c ∈ ([⟨2, [some 0]⟩, ⟨4, [some 1]⟩] : List VertexCitation),
        c.endIndex ≤ ([97, 98, 99, 100, 101] : List Nat).length)
    ∧ (∀ c ∈ ([⟨2, [some 0]⟩, ⟨4, [some 1]⟩] : List VertexCitation),
        (validRefs c).isEmpty = false)
    ∧ ((insertLoopNode [] 0 [97, 98, 99, 100, 101] [⟨2, [some 0]⟩, ⟨4, [some 1]⟩]).drop
        (([⟨2, [some 0]⟩, ⟨4, [some 1]⟩] : List VertexCitation)[1].endIndex +
          prefixLens [⟨2, [some 0]⟩, ⟨4, [some 1]⟩] 1)).take
        (markerLen ([⟨2, [some 0]⟩, ⟨4, [some 1]⟩] : List VertexCitation)[1]) =
      markerBytes (validRefs ([⟨2, [some 0]⟩, ⟨4, [some 1]⟩] : List VertexCitation)[1]) :=
  ⟨utf8Chars_of_ascii _ (by decide),
    by
      intro c hc
      rcases List.mem_cons.mp hc with rfl | hc2
      · exact utf8Chars_of_ascii _ (by decide)
      · rcases List.mem_cons.mp hc2 with rfl | hc3
        · exact utf8Chars_of_ascii _ (by decide)
        · exact absurd hc3 (List.not_mem_nil c)
    , by decide, by decide, by decide,
    C5_offset_drift_amended [97, 98, 99, 100, 101] [⟨2, [some 0]⟩, ⟨4, [some 1]⟩]
      (utf8Chars_of_ascii _ (by decide))
      (by
        intro c hc
        rcases List.mem_cons.mp hc with rfl | hc2
        · exact utf8Chars_of_ascii _ (by decide)
        · rcases List.mem_cons.mp hc2 with rfl | hc3
          · exact utf8Chars_of_ascii _ (by decide)
          · exact absurd hc3 (List.not_mem_nil c))
      (by decide) (by decide) (by decide) 1 (by decide)⟩

/-- Claim C6 (corrected), counterexample: on the valid UTF-8 text `"é"`
(bytes `[0xC3, 0xA9]`), a citation at byte offset 1 — inside the two-byte
character — is not rejected: the marker is spliced in anyway, and the
resulting buffer `[0xC3, 91, 49, 93, 0xA9]` is not valid UTF-8, so its
decoding yields replacement characters (Node substitutes U+FFFD rather than
raising). -/
theorem C6_utf8_counterexample :
    isValidUtf8 [195, 169] = true
    ∧ insertCitationMarkers [195, 169] (some [⟨1, [some 0]⟩]) = [195, 91, 49, 93, 169]
    ∧ insertCitationMarkers [195, 169] (some [⟨1, [some 0]⟩]) ≠ [195, 169]
    ∧ isValidUtf8 [195, 91, 49, 93, 169] = false := by
  refine ⟨by decide, by decide, by decide, by decide⟩

/-- Claim C6 (corrected), amended claim: the editor performs no boundary
check at all: a candidate insertion position that falls inside a multi-byte
character is spliced at anyway, splitting the character, and the spliced
buffer can fail UTF-8 validity; decoding then never raises an error only
because Node substitutes U+FFFD replacement characters, i.e. the annotated
text can contain corrupted characters. -/
theorem C6_utf8_amended :
    insertCitationMarkers [195, 169] (some [⟨1, [some 0]⟩]) = [195, 91, 49, 93, 169]
    ∧ isValidUtf8 [195, 91, 49, 93, 169] = false := by
  refine ⟨by decide, by decide⟩

/-- Claim C7 (corrected), counterexample: two citations pointing at the same
key `(documentId "abc", page 4)` trigger the signed-URL lookup twice, not at
most once — the loop of `transformReferences` issues one sequential lookup
per qualifying reference with no per-key memoization. -/
theorem C7_dedup_counterexample :
    (transformReferences noUrlEnv [pdfRefAbc, pdfRefAbc]).2 = [("abc", 4), ("abc", 4)]
    ∧ ¬ (transformReferences noUrlEnv [pdfRefAbc, pdfRefAbc]).2.count ("abc", 4) ≤ 1 := by
  refine ⟨by decide, by decide⟩

/-- Claim C7 (corrected), amended claim: the deep-link lookup is issued
exactly once per qualifying reference, sequentially in reference-list order
— the call log equals the list of lookup keys of the qualifying references —
so distinct citations sharing a `(documentId, pageNumber)` key issue that
many duplicate lookups rather than sharing one. -/
theorem C7_dedup_amended (env : String → Nat → Option String)
    (refs : List VertexReference) :
    (transformReferences env refs).2 = refs.filterMap lookupKeyOf :=
  transformRefsGo_log env refs 0

/-- Claim C8 (confirmed): a document citation whose signed-URL lookup fails
(`none`, covering a non-success response, a thrown network error or a
timeout) is still included at its position in the output, with
`sourceType = "pdf"` and its `pageNumber` set and `deepLink` absent, and the
failure aborts nothing: the output still has one citation per reference. -/
theorem C8_lookup_failure (env : String → Nat → Option String)
    (refs : List VertexReference) (i : Nat) (ref : VertexReference)
    (sd : VertexStructData) (dId : String) (p : Nat)
    (href : refs[i]? = some ref)
    (hsd : ref.structData = some sd)
    (hst : sd.source_type = some .pdf)
    (hdoc : sd.document_id = some dId)
    (hne : dId ≠ "")
    (hpg : sd.page_number = some p)
    (hp0 : p ≠ 0)
    (hfail : env dId p = none) :
    ∃ c, (transformReferences env refs).1[i]? = some c
      ∧ c.deepLink = none
      ∧ c.sourceType = "pdf"
      ∧ c.pageNumber = some p
      ∧ c.citationNumber = i + 1
      ∧ (transformReferences env refs).1.length = refs.length := by
  have hgoal : (transformReferences env refs).1[i]? = some (transformOneRef env i ref) := by
    rw [transformReferences, transformRefsGo_getElem, href]
    simp
  have hbe : dId.isEmpty = false := by
    rw [← Bool.not_eq_true, String.isEmpty_iff]
    exact hne
  have hone : transformOneRef env i ref =
      { citationNumber := i + 1
        sourceType := "pdf"
        documentId := some dId
        title := sd.title
        pageNumber := some p
        snippet := if ref.content.isEmpty then sd.transcript.getD "" else ref.content
        deepLink := none } := by
    simp [transformOneRef, hsd, hst, hdoc, hpg, truthyStr, truthyNat, hbe, hp0,
      getDocumentSignedUrl, hfail, SourceType.str]
  refine ⟨transformOneRef env i ref, hgoal, ?_, ?_, ?_, ?_,
    transformRefsGo_length env refs 0⟩ <;> rw [hone]

/-- Witness for `C8_lookup_failure`: the single reference `pdfRefAbc` under
the always-failing lookup environment. -/
theorem C8_lookup_failure_witness :
    ([pdfRefAbc] : List VertexReference)[0]? = some pdfRefAbc
    ∧ pdfRefAbc.structData = some pdfSdAbc
    ∧ pdfSdAbc.source_type = some .pdf
    ∧ pdfSdAbc.document_id = some "abc"
    ∧ "abc" ≠ ""
    ∧ pdfSdAbc.page_number = some 4
    ∧ (4 : Nat) ≠ 0
    ∧ noUrlEnv "abc" 4 = none
    ∧ ∃ c, (transformReferences noUrlEnv [pdfRefAbc]).1[0]? = some c
      ∧ c.deepLink = none
      ∧ c.sourceType = "pdf"
      ∧ c.pageNumber = some 4
      ∧ c.citationNumber = 0 + 1
      ∧ (transformReferences noUrlEnv [pdfRefAbc]).1.length = [pdfRefAbc].length :=
  ⟨rfl, rfl, rfl, rfl, by decide, rfl, by decide, rfl,
    C8_lookup_failure noUrlEnv [pdfRefAbc] 0 pdfRefAbc pdfSdAbc "abc" 4
      rfl rfl rfl rfl (by decide) rfl (by decide) rfl⟩

/-- Claim C9 (confirmed): when the upstream answer state is `FAILED`,
`queryAIMode` throws before any composition: no reference transformation and
no lookup runs (the call log is empty), and the error message is the
`skipReasons` joined into a single diagnostic. -/
theorem C9_failed_state (env : String → Nat → Option String) (query : String)
    (data : VertexAnswer) (h : data.state = "FAILED") :
    queryAIModeLog env query data =
      (.error ("AI Mode failed: " ++ joinReasons data.answerSkippedReasons), []) := by
  simp [queryAIModeLog, h]

/-- Witness for `C9_failed_state`: a failed answer with
`skipReasons = ["NO_RELEVANT_CONTENT"]` yields exactly the error
`"AI Mode failed: NO_RELEVANT_CONTENT"` and an empty lookup log, despite a
nonempty reference list. -/
theorem C9_failed_state_witness :
    failedAnswer.state = "FAILED"
    ∧ (queryAIModeLog noUrlEnv "q" failedAnswer).1 =
      .error "AI Mode failed: NO_RELEVANT_CONTENT"
    ∧ (queryAIModeLog noUrlEnv "q" failedAnswer).2 = [] :=
  ⟨rfl,
    (congrArg Prod.fst (C9_failed_state noUrlEnv "q" failedAnswer rfl)).trans
      (congrArg Except.error (by decide)),
    congrArg Prod.snd (C9_failed_state noUrlEnv "q" failedAnswer rfl)⟩

/-- Claim C10 (confirmed): the AI-mode `VertexSearchProvider.search` is total
at its interface: on any failure of the external call (token acquisition
failure, non-OK HTTP response, or any thrown exception) it returns
`getEmptyResults(query)` — an empty results array, `number_of_results = 0`
and the original query echoed back — instead of propagating the exception. -/
theorem C10_total_on_failure (outcome : VertexFetchOutcome)
    (env : String → Nat → Option String) (query : String)
    (h : ∀ d, outcome ≠ .success d) :
    VertexSearchProvider.search outcome env query =
      VertexSearchProvider.getEmptyResults query
    ∧ (VertexSearchProvider.search outcome env query).results = []
    ∧ (VertexSearchProvider.search outcome env query).number_of_results = 0
    ∧ (VertexSearchProvider.search outcome env query).query = query := by
  cases outcome with
  | tokenError => exact ⟨rfl, rfl, rfl, rfl⟩
  | httpNotOk => exact ⟨rfl, rfl, rfl, rfl⟩
  | thrown => exact ⟨rfl, rfl, rfl, rfl⟩
  | success d => exact absurd rfl (h d)

/-- Witness for `C10_total_on_failure` at the non-OK HTTP outcome. -/
theorem C10_total_on_failure_witness :
    (∀ d, VertexFetchOutcome.httpNotOk ≠ .success d)
    ∧ VertexSearchProvider.search .httpNotOk noUrlEnv "pulse motors" =
      VertexSearchProvider.getEmptyResults "pulse motors" :=
  ⟨fun _ h => VertexFetchOutcome.noConfusion h,
    (C10_total_on_failure .httpNotOk noUrlEnv "pulse motors"
      (fun _ h => VertexFetchOutcome.noConfusion h)).1⟩
